/-
Verification of the spreadsheet attendance-extraction engine
(`src/server/routes/attendance.ts`).

Modelling conventions:
* A cell's raw value is represented by its JavaScript string view
  `String(v)`; an absent cell (or a cell whose value is `undefined`)
  is `none`, so `String(v ?? "")` becomes `(·.getD "")`.
* JavaScript numbers are modelled as exact rationals (`ℚ`); `NaN` and
  the two infinities produced by `parseFloat` are tracked by the
  `JsNum` type.  No claim in scope depends on binary rounding of
  float arithmetic.
* Whitespace is the ASCII whitespace set recognised by
  `Char.isWhitespace`; the sheets in scope contain only ASCII text.
-/
import Mathlib

namespace ATD

/-- Strip leading and trailing whitespace (JS `String.prototype.trim`
restricted to ASCII text). -/
def listTrim (l : List Char) : List Char :=
  ((l.dropWhile Char.isWhitespace).reverse.dropWhile Char.isWhitespace).reverse

/-- `s.trim()`. -/
def strTrim (s : String) : String :=
  String.mk (listTrim s.toList)

/-- ASCII upper-casing of one character. -/
def charUpper (c : Char) : Char :=
  if 'a' ≤ c ∧ c ≤ 'z' then Char.ofNat (c.toNat - 32) else c

/-- ASCII lower-casing of one character. -/
def charLower (c : Char) : Char :=
  if 'A' ≤ c ∧ c ≤ 'Z' then Char.ofNat (c.toNat + 32) else c

/-- `s.toUpperCase()` (ASCII). -/
def strUpper (s : String) : String :=
  String.mk (s.toList.map charUpper)

/-- `s.toLowerCase()` (ASCII). -/
def strLower (s : String) : String :=
  String.mk (s.toList.map charLower)

/-- `s.startsWith(pat)`. -/
def strStartsWith (s pat : String) : Bool :=
  pat.toList.isPrefixOf s.toList

/-- `normalizeStr(v)` from attendance.ts: `String(v ?? "").trim()`. -/
def normalizeStr (v : Option String) : String :=
  strTrim (v.getD "")

/-- One step of collapsing whitespace runs: `prevWS` records whether the
previous character was part of a whitespace run already replaced. -/
def collapseWSAux : Bool → List Char → List Char
  | _, [] => []
  | prevWS, c :: rest =>
    if c.isWhitespace then
      (if prevWS then [] else [' ']) ++ collapseWSAux true rest
    else
      c :: collapseWSAux false rest

/-- `s.replace(/\s+/g, " ")`: every maximal whitespace run becomes one space. -/
def collapseWS (l : List Char) : List Char :=
  collapseWSAux false l

/-- `isIgnored(v)` from attendance.ts: trimmed-empty, the header token
`no`/`no.` (case-insensitive, regex `^no\.?$/i`), or a bare dot. -/
def isIgnored (v : String) : Bool :=
  let s := strTrim v
  s == "" || strLower s == "no" || strLower s == "no." || s == "."

/-- `normalizeForCompare(s)` from attendance.ts:
`s.replace(/[.]/g, "").replace(/\s+/g, " ").trim().toUpperCase()`. -/
def normalizeForCompare (s : String) : String :=
  strUpper (strTrim (String.mk (collapseWS (s.toList.filter (· ≠ '.')))))

/-- Digits-to-number accumulator (the value `parseFloat` assigns to a
digit string). -/
def natOfDigits (l : List Char) : ℕ :=
  l.foldl (fun a c => a * 10 + (c.toNat - 48)) 0

/-- The regex tail `\s*([0-9]+(?:\.[0-9]+)?)?` applied after a literal
`OT` match: greedily skip whitespace, then capture an optional decimal
number; an absent capture yields 0 (`otMatch[1] ? parseFloat(...) : 0`). -/
def otAfter (l : List Char) : ℚ :=
  let l1 := l.dropWhile Char.isWhitespace
  let d1 := l1.takeWhile Char.isDigit
  if d1.isEmpty then 0
  else
    match l1.drop d1.length with
    | '.' :: r2 =>
      let d2 := r2.takeWhile Char.isDigit
      if d2.isEmpty then (natOfDigits d1 : ℚ)
      else (natOfDigits d1 : ℚ) + (natOfDigits d2 : ℚ) / 10 ^ d2.length
    | _ => (natOfDigits d1 : ℚ)

/-- `s.match(/OT\s*([0-9]+(?:\.[0-9]+)?)?/)`: the regex matches at the
first occurrence of the literal `OT`; with no occurrence the match is
`null` and the classifier's `ot` stays 0. -/
def otFind : List Char → ℚ
  | [] => 0
  | 'O' :: 'T' :: rest => otAfter rest
  | _ :: rest => otFind rest

/-- Result record of `classifyCell`. -/
structure ClassifyResult where
  present : ℕ
  absent : ℕ
  weekoff : ℕ
  ot : ℚ
deriving DecidableEq

/-- `classifyCell(raw)` from attendance.ts. -/
def classifyCell (raw : Option String) : ClassifyResult :=
  let s := strUpper (normalizeStr raw)
  if s == "" then ⟨0, 0, 0, 0⟩
  else
    let ot := otFind s.toList
    if s == "P" || strStartsWith s "P/" || s == "PR" || s == "PRESENT" then
      ⟨1, 0, 0, ot⟩
    else if s == "A" || s == "ABSENT" then
      ⟨0, 1, 0, ot⟩
    else if s == "WO" || s == "W/O" || s == "WEEKOFF" || s == "WEEK OFF" then
      ⟨0, 0, 1, ot⟩
    else
      ⟨0, 0, 0, ot⟩

/-- Result of JavaScript `Number.parseFloat`: `NaN`, a signed infinity
(from a literal `Infinity` token), or a finite value. -/
inductive JsNum where
  | nan : JsNum
  | inf (neg : Bool) : JsNum
  | fin (q : ℚ) : JsNum
deriving DecidableEq

/-- Optional exponent part of a `StrDecimalLiteral`: `e`/`E`, optional
sign, digits; consumed only when at least one digit follows. -/
def applyExp (q : ℚ) : List Char → ℚ
  | e :: rest =>
    if e = 'e' ∨ e = 'E' then
      let signed : Bool × List Char :=
        match rest with
        | '-' :: t => (true, t)
        | '+' :: t => (false, t)
        | _ => (false, rest)
      let ed := signed.2.takeWhile Char.isDigit
      if ed.isEmpty then q
      else q * (10 : ℚ) ^ (if signed.1 then -(natOfDigits ed : ℤ) else (natOfDigits ed : ℤ))
    else q
  | [] => q

/-- `Number.parseFloat(s)`: longest prefix of `s` (after leading
whitespace and an optional sign) that forms a decimal literal or the
token `Infinity`; `NaN` when no such prefix exists. -/
def jsParseFloat (s : String) : JsNum :=
  let l := s.toList.dropWhile Char.isWhitespace
  let signed : Bool × List Char :=
    match l with
    | '-' :: t => (true, t)
    | '+' :: t => (false, t)
    | _ => (false, l)
  let neg := signed.1
  let l1 := signed.2
  if "Infinity".toList.isPrefixOf l1 then .inf neg
  else
    let d1 := l1.takeWhile Char.isDigit
    let r1 := l1.drop d1.length
    if d1.isEmpty then
      match r1 with
      | '.' :: r2 =>
        let d2 := r2.takeWhile Char.isDigit
        if d2.isEmpty then .nan
        else
          let base : ℚ := (natOfDigits d2 : ℚ) / 10 ^ d2.length
          .fin ((if neg then -1 else 1) * applyExp base (r2.drop d2.length))
      | _ => .nan
    else
      match r1 with
      | '.' :: r2 =>
        let d2 := r2.takeWhile Char.isDigit
        let base : ℚ := (natOfDigits d1 : ℚ) + (natOfDigits d2 : ℚ) / 10 ^ d2.length
        .fin ((if neg then -1 else 1) * applyExp base (r2.drop d2.length))
      | _ => .fin ((if neg then -1 else 1) * applyExp (natOfDigits d1 : ℚ) r1)

/-- A worksheet: the used range decoded from `ws["!ref"]`
(`range.s.r .. range.e.r`, `range.s.c .. range.e.c`) and the cells'
string views, `cells r c = some (String(cell.v))` for a populated cell
and `none` for an absent one. -/
structure Sheet where
  sr : ℕ
  er : ℕ
  sc : ℕ
  ec : ℕ
  cells : ℕ → ℕ → Option String

/-- Row indices visited by `for (let r = range.s.r; r <= range.e.r; r++)`. -/
def rowList (ws : Sheet) : List ℕ :=
  List.range' ws.sr (ws.er + 1 - ws.sr)

structure Employee where
  number : String
  name : String
deriving DecidableEq

/-- The pre-deduplication employee list: one entry per row whose
identity-number (column 1) and name (column 2) cells both survive
`isIgnored`. -/
def rawEmployees (ws : Sheet) : List Employee :=
  (rowList ws).filterMap fun r =>
    let number := normalizeStr (ws.cells r 1)
    let name := normalizeStr (ws.cells r 2)
    if isIgnored number || isIgnored name then none
    else some ⟨number, name⟩

/-- `const key = e.number || e.name` (JS `||`: the name is used only
when the number is the empty string). -/
def empKey (e : Employee) : String :=
  if e.number == "" then e.name else e.number

/-- Insertion into a `Map` keyed by `empKey`, first occurrence wins,
insertion order preserved. -/
def dedupeBy : List Employee → List String → List Employee
  | [], _ => []
  | e :: rest, seen =>
    if empKey e ∈ seen then dedupeBy rest seen
    else e :: dedupeBy rest (empKey e :: seen)

/-- `readEmployeesFromSheet(ws)` from attendance.ts. -/
def readEmployeesFromSheet (ws : Sheet) : List Employee :=
  dedupeBy (rawEmployees ws) []

/-- `number ? normalizeForCompare(number) : undefined` (the query
string is falsy exactly when empty). -/
def queryNorm (q : Option String) : Option String :=
  match q with
  | none => none
  | some s => if s == "" then none else some (normalizeForCompare s)

/-- `(normNumber && matchNumber) || (normName && matchName)`: a
normalized query participates only when truthy (non-empty). -/
def rowMatches (normNumber normName : Option String) (b c : String) : Bool :=
  (match normNumber with
   | some nn => !(nn == "") && normalizeForCompare b == nn
   | none => false) ||
  (match normName with
   | some nm => !(nm == "") && normalizeForCompare c == nm
   | none => false)

/-- One iteration of the `/summary` row-scan loop: `none` when the row
is skipped or does not match, `some (r, employee)` at a match. -/
def rowCandidate (ws : Sheet) (number name : Option String) (r : ℕ) :
    Option (ℕ × Employee) :=
  let b := normalizeStr (ws.cells r 1)
  let c := normalizeStr (ws.cells r 2)
  if isIgnored b || isIgnored c then none
  else if rowMatches (queryNorm number) (queryNorm name) b c then some (r, ⟨b, c⟩)
  else none

/-- The `/summary` row-resolution loop (lines 145–162 of
attendance.ts): first matching row wins, the scan stops there. -/
def findEmployeeRow (ws : Sheet) (number name : Option String) :
    Option (ℕ × Employee) :=
  (rowList ws).findSome? (rowCandidate ws number name)

structure AttendanceSummary where
  present : ℕ
  absent : ℕ
  weekoff : JsNum
  otHours : JsNum
deriving DecidableEq

/-- Day columns scanned by `summarizeRow`:
`for (let c = 3; c <= Math.min(range.e.c, 33); c++)`. -/
def dayCols (ws : Sheet) : List ℕ :=
  List.range' 3 (min ws.ec 33 + 1 - 3)

/-- The per-day accumulation loop of `summarizeRow`, as a fold of
(present, absent, weekoff, otHours). -/
def dayAccum (ws : Sheet) (r : ℕ) : ℕ × ℕ × ℕ × ℚ :=
  (dayCols ws).foldl
    (fun a c =>
      (a.1 + (classifyCell (ws.cells r c)).present,
       a.2.1 + (classifyCell (ws.cells r c)).absent,
       a.2.2.1 + (classifyCell (ws.cells r c)).weekoff,
       a.2.2.2 + (classifyCell (ws.cells r c)).ot))
    (0, 0, 0, 0)

/-- `summarizeRow(ws, rowIndex)` from attendance.ts: per-day scan of
columns 3..min(e.c, 33), then the weekoff (column 37) and OT
(column 41) overrides, each applied when `parseFloat` of the cell's
string view is not `NaN`. -/
def summarizeRow (ws : Sheet) (r : ℕ) : AttendanceSummary :=
  let acc := dayAccum ws r
  let parsedWO := jsParseFloat ((ws.cells r 37).getD "")
  let parsedOT := jsParseFloat ((ws.cells r 41).getD "")
  { present := acc.1
    absent := acc.2.1
    weekoff := match parsedWO with | .nan => .fin (acc.2.2.1 : ℚ) | x => x
    otHours := match parsedOT with | .nan => .fin acc.2.2.2 | x => x }

/-- A workbook: sheet names in stored order, each with its sheet. -/
structure Workbook where
  sheets : List (String × Sheet)

/-- `String.prototype.includes`: `pat` occurs as a contiguous
subsequence of `l`. -/
def containsSeq (pat : List Char) : List Char → Bool
  | [] => pat.isEmpty
  | a :: rest => pat.isPrefixOf (a :: rest) || containsSeq pat rest

/-- The sheet-name predicate of `findPresentSheet`: lower-cased,
trimmed name contains `present` or `presant`. -/
def presentName (n : String) : Bool :=
  let s := strTrim (strLower n)
  containsSeq "present".toList s.toList || containsSeq "presant".toList s.toList

/-- `findPresentSheet(wb)` from attendance.ts: `wb.SheetNames.find(...)`
followed by the `wb.Sheets[sheetName]` lookup. -/
def findPresentSheet (wb : Workbook) : Option Sheet :=
  match (wb.sheets.map Prod.fst).find? presentName with
  | none => none
  | some n => (wb.sheets.find? (fun p => p.1 == n)).map Prod.snd

/-- An HTTP error response: status code and error message. -/
structure ErrResp where
  status : ℕ
  msg : String
deriving DecidableEq

/-- `GET /employees` after the workbook has been loaded (the `file`
parameter and file-system errors are outside the model). -/
def employeesEndpoint (wb : Workbook) : Except ErrResp (List Employee) :=
  match findPresentSheet wb with
  | none => .error ⟨400, "Sheet 'present' not found"⟩
  | some ws => .ok (readEmployeesFromSheet ws)

/-- `GET /summary` after the workbook has been loaded. -/
def summaryEndpoint (wb : Workbook) (number name : Option String) :
    Except ErrResp (Employee × AttendanceSummary) :=
  if (number.getD "") == "" && (name.getD "") == "" then
    .error ⟨400, "Provide number or name"⟩
  else
    match findPresentSheet wb with
    | none => .error ⟨400, "Sheet 'present' not found"⟩
    | some ws =>
      match findEmployeeRow ws number name with
      | none => .error ⟨404, "Employee not found"⟩
      | some (r, emp) => .ok (emp, summarizeRow ws r)

/-! ### Claim-side vocabulary

The attendance-code sets named by the specification, used to state the
classifier claims. -/

/-- Spec: the normalized string equals `"P"`, starts with `"P/"`,
equals `"PR"`, or equals `"PRESENT"`. -/
def presentCode (s : String) : Bool :=
  s == "P" || strStartsWith s "P/" || s == "PR" || s == "PRESENT"

/-- Spec: the normalized string equals `"A"` or `"ABSENT"`. -/
def absentCode (s : String) : Bool :=
  s == "A" || s == "ABSENT"

/-- Spec: the normalized string equals `"WO"`, `"W/O"`, `"WEEKOFF"`,
or `"WEEK OFF"`. -/
def weekoffCode (s : String) : Bool :=
  s == "WO" || s == "W/O" || s == "WEEKOFF" || s == "WEEK OFF"

/-! ### Concrete worksheets used by witnesses and counterexamples -/

/-- A header row, a padded-number employee row with three day cells,
and a second employee row. -/
def wsResolver : Sheet :=
  { sr := 0, er := 2, sc := 0, ec := 10
    cells := fun r c =>
      if r = 0 ∧ c = 1 then some "No."
      else if r = 0 ∧ c = 2 then some "Name"
      else if r = 1 ∧ c = 1 then some " 007 "
      else if r = 1 ∧ c = 2 then some "John Doe"
      else if r = 1 ∧ c = 3 then some "P"
      else if r = 1 ∧ c = 4 then some "A"
      else if r = 1 ∧ c = 5 then some "WO"
      else if r = 2 ∧ c = 1 then some "008"
      else if r = 2 ∧ c = 2 then some "Jane"
      else none }

/-- Like `wsResolver` but the identity number is `"0007"`, which must
not match a `"007"` query. -/
def wsPadded : Sheet :=
  { sr := 0, er := 0, sc := 0, ec := 10
    cells := fun r c =>
      if r = 0 ∧ c = 1 then some "0007"
      else if r = 0 ∧ c = 2 then some "John Doe"
      else none }

/-- Two employee rows whose identity numbers differ only in letter
case (`"A1"` vs `"a1"`). -/
def wsCase : Sheet :=
  { sr := 0, er := 1, sc := 0, ec := 5
    cells := fun r c =>
      if r = 0 ∧ c = 1 then some "A1"
      else if r = 0 ∧ c = 2 then some "X"
      else if r = 1 ∧ c = 1 then some "a1"
      else if r = 1 ∧ c = 2 then some "Y"
      else none }

/-- A single row with a valid number and an empty name cell. -/
def wsEmptyName : Sheet :=
  { sr := 0, er := 0, sc := 0, ec := 5
    cells := fun r c =>
      if r = 0 ∧ c = 1 then some "7"
      else if r = 0 ∧ c = 2 then some ""
      else none }

/-- A `"No."` header row and a bare-dot row only. -/
def wsDotHeader : Sheet :=
  { sr := 0, er := 1, sc := 0, ec := 5
    cells := fun r c =>
      if r = 0 ∧ c = 1 then some "No."
      else if r = 0 ∧ c = 2 then some "Name"
      else if r = 1 ∧ c = 1 then some "."
      else if r = 1 ∧ c = 2 then some "x"
      else none }

/-- One employee row whose per-day scan yields weekoff = 2 and whose
weekoff-override cell (column 37) holds `"3"`. -/
def wsOverride : Sheet :=
  { sr := 0, er := 0, sc := 0, ec := 40
    cells := fun r c =>
      if r = 0 ∧ c = 1 then some "9"
      else if r = 0 ∧ c = 2 then some "Zoe"
      else if r = 0 ∧ c = 3 then some "WO"
      else if r = 0 ∧ c = 4 then some "WO"
      else if r = 0 ∧ c = 5 then some "P"
      else if r = 0 ∧ c = 37 then some "3"
      else none }

/-! ### Theorems -/

/-- C1: after trimming and upper-casing, `classifyCell` sets present=1
exactly on the presence codes (`"P"`, `"P/..."` prefix, `"PR"`,
`"PRESENT"`); otherwise absent=1 exactly on `"A"`/`"ABSENT"`; otherwise
weekoff=1 exactly on `"WO"`/`"W/O"`/`"WEEKOFF"`/`"WEEK OFF"`; any other
string leaves all three flags 0, and at most one flag is ever 1,
independent of the extracted OT value. -/
theorem claim_C1 (v : Option String) :
    (classifyCell v).present
        = (if presentCode (strUpper (normalizeStr v)) then 1 else 0) ∧
    (classifyCell v).absent
        = (if presentCode (strUpper (normalizeStr v)) then 0
           else if absentCode (strUpper (normalizeStr v)) then 1 else 0) ∧
    (classifyCell v).weekoff
        = (if presentCode (strUpper (normalizeStr v)) then 0
           else if absentCode (strUpper (normalizeStr v)) then 0
           else if weekoffCode (strUpper (normalizeStr v)) then 1 else 0) ∧
    (classifyCell v).present + (classifyCell v).absent + (classifyCell v).weekoff ≤ 1 := by
  generalize hs : strUpper (normalizeStr v) = s
  unfold classifyCell
  rw [hs]
  dsimp only
  by_cases h0 : s = ""
  · subst h0
    simp [presentCode, absentCode, weekoffCode, strStartsWith]
  · have h0' : (s == "") = false := by simpa using h0
    simp only [h0', Bool.false_eq_true, if_false]
    by_cases hp : (s == "P" || strStartsWith s "P/" || s == "PR" || s == "PRESENT") = true
    · simp [presentCode, hp]
    · have hp' := Bool.not_eq_true _ |>.mp hp
      by_cases ha : (s == "A" || s == "ABSENT") = true
      · simp [presentCode, absentCode, hp', ha]
      · have ha' := Bool.not_eq_true _ |>.mp ha
        by_cases hw : (s == "WO" || s == "W/O" || s == "WEEKOFF" || s == "WEEK OFF") = true
        · simp [presentCode, absentCode, weekoffCode, hp', ha', hw]
        · have hw' := Bool.not_eq_true _ |>.mp hw
          simp [presentCode, absentCode, weekoffCode, hp', ha', hw']


/-- C6: overtime extraction is independent of the tri-state decision —
`ot` always equals the value of the `OT` pattern search on the full
normalized string; `classify("OT2.5")` yields `ot = 2.5` with all flags
0, and `classify("P OT2")` yields `ot = 2` with `present = 0` because
presence is evaluated against the full normalized string. -/
theorem claim_C6 :
    (∀ v : Option String, (classifyCell v).ot = otFind (strUpper (normalizeStr v)).toList) ∧
    classifyCell (some "OT2.5") = ⟨0, 0, 0, (2.5 : ℚ)⟩ ∧
    classifyCell (some "P OT2") = ⟨0, 0, 0, 2⟩ := by
  refine ⟨?_, by with_unfolding_all rfl, by with_unfolding_all rfl⟩
  intro v
  unfold classifyCell
  dsimp only
  by_cases h0 : strUpper (normalizeStr v) = ""
  · rw [h0]
    rfl
  · have h0' : (strUpper (normalizeStr v) == "") = false := by simpa using h0
    simp only [h0', Bool.false_eq_true, if_false]
    split_ifs <;> rfl

/-- C8: the Cell Classifier is total — modelled over every possible
string view of a raw cell value (text, number, empty, or absent cell);
any value that normalizes to the empty string yields the all-zero
result. -/
theorem claim_C8 :
    (∀ v : Option String, strUpper (normalizeStr v) = "" → classifyCell v = ⟨0, 0, 0, 0⟩) ∧
    classifyCell none = ⟨0, 0, 0, 0⟩ ∧ classifyCell (some "") = ⟨0, 0, 0, 0⟩ := by
  refine ⟨?_, rfl, rfl⟩
  intro v h
  unfold classifyCell
  dsimp only
  rw [h]
  rfl

/-- Witness for C8 at the concrete whitespace-only cell `"  "`. -/
theorem claim_C8_witness :
    strUpper (normalizeStr (some "  ")) = "" ∧ classifyCell (some "  ") = ⟨0, 0, 0, 0⟩ :=
  ⟨by decide, claim_C8.1 (some "  ") (by decide)⟩

/-- Unrolling the four-counter accumulation fold into per-field sums. -/
theorem foldAcc (f : ℕ → ClassifyResult) (l : List ℕ) :
    ∀ a : ℕ × ℕ × ℕ × ℚ,
      l.foldl (fun a c =>
          (a.1 + (f c).present, a.2.1 + (f c).absent,
           a.2.2.1 + (f c).weekoff, a.2.2.2 + (f c).ot)) a
        = (a.1 + (l.map fun c => (f c).present).sum,
           a.2.1 + (l.map fun c => (f c).absent).sum,
           a.2.2.1 + (l.map fun c => (f c).weekoff).sum,
           a.2.2.2 + (l.map fun c => (f c).ot).sum) := by
  induction l with
  | nil => intro a; simp
  | cons c t ih =>
    intro a
    simp only [List.foldl_cons, List.map_cons, List.sum_cons, ih]
    simp [add_assoc]

/-- The day-column accumulator equals the per-field sums over the
scanned window. -/
theorem dayAccum_eq (ws : Sheet) (r : ℕ) :
    dayAccum ws r
      = (((dayCols ws).map fun c => (classifyCell (ws.cells r c)).present).sum,
         ((dayCols ws).map fun c => (classifyCell (ws.cells r c)).absent).sum,
         ((dayCols ws).map fun c => (classifyCell (ws.cells r c)).weekoff).sum,
         ((dayCols ws).map fun c => (classifyCell (ws.cells r c)).ot).sum) := by
  unfold dayAccum
  rw [foldAcc (fun c => classifyCell (ws.cells r c))]
  simp

/-- A single cell contributes to at most one of the present/absent
counters. -/
theorem classify_present_add_absent_le_one (v : Option String) :
    (classifyCell v).present + (classifyCell v).absent ≤ 1 := by
  unfold classifyCell
  dsimp only
  split_ifs <;> simp

/-- Summing two pointwise-exclusive 0/1 counters over a list is
bounded by the list length. -/
theorem sum_map_add_le (l : List ℕ) (f g : ℕ → ℕ) (h : ∀ c ∈ l, f c + g c ≤ 1) :
    (l.map f).sum + (l.map g).sum ≤ l.length := by
  induction l with
  | nil => simp
  | cons c t ih =>
    simp only [List.map_cons, List.sum_cons, List.length_cons]
    have h1 := h c (List.mem_cons_self c t)
    have h2 := ih (fun x hx => h x (List.mem_cons_of_mem c hx))
    omega

/-- The scanned day-column window has `min(e.c, 33) + 1 - 3` columns. -/
theorem dayCols_length (ws : Sheet) : (dayCols ws).length = min ws.ec 33 + 1 - 3 := by
  simp [dayCols]

/-- C9: `present + absent` never exceeds the number of day columns
scanned, which itself is at most 31; each day cell feeds at most one of
the two counters and neither counter is overridden. -/
theorem claim_C9 (ws : Sheet) (r : ℕ) :
    (summarizeRow ws r).present + (summarizeRow ws r).absent ≤ min ws.ec 33 + 1 - 3 ∧
    (summarizeRow ws r).present + (summarizeRow ws r).absent ≤ 31 := by
  have h1 : (summarizeRow ws r).present = (dayAccum ws r).1 := rfl
  have h2 : (summarizeRow ws r).absent = (dayAccum ws r).2.1 := rfl
  rw [h1, h2, dayAccum_eq]
  dsimp only
  have hb := sum_map_add_le (dayCols ws)
    (fun c => (classifyCell (ws.cells r c)).present)
    (fun c => (classifyCell (ws.cells r c)).absent)
    (fun c _ => classify_present_add_absent_le_one (ws.cells r c))
  rw [dayCols_length] at hb
  exact ⟨hb, by omega⟩

/-- A finite `parseFloat` result at the weekoff-override column
replaces the accumulated weekoff. -/
theorem summarizeRow_weekoff_fin (ws : Sheet) (r : ℕ) (q : ℚ)
    (h : jsParseFloat ((ws.cells r 37).getD "") = .fin q) :
    (summarizeRow ws r).weekoff = .fin q := by
  unfold summarizeRow
  dsimp only
  rw [h]

/-- A `NaN` parse at the weekoff-override column leaves the
accumulated weekoff. -/
theorem summarizeRow_weekoff_nan (ws : Sheet) (r : ℕ)
    (h : jsParseFloat ((ws.cells r 37).getD "") = .nan) :
    (summarizeRow ws r).weekoff = .fin ((dayAccum ws r).2.2.1 : ℚ) := by
  unfold summarizeRow
  dsimp only
  rw [h]

/-- A finite `parseFloat` result at the OT-override column replaces
the accumulated OT hours. -/
theorem summarizeRow_otHours_fin (ws : Sheet) (r : ℕ) (q : ℚ)
    (h : jsParseFloat ((ws.cells r 41).getD "") = .fin q) :
    (summarizeRow ws r).otHours = .fin q := by
  unfold summarizeRow
  dsimp only
  rw [h]

/-- A `NaN` parse at the OT-override column leaves the accumulated OT
hours. -/
theorem summarizeRow_otHours_nan (ws : Sheet) (r : ℕ)
    (h : jsParseFloat ((ws.cells r 41).getD "") = .nan) :
    (summarizeRow ws r).otHours = .fin (dayAccum ws r).2.2.2 := by
  unfold summarizeRow
  dsimp only
  rw [h]

/-- C2: the Monthly Summarizer accumulates by classifying exactly the
day columns 3 through `min(e.c, 33)` (at most 31 columns); a finite
parse of the column-37 cell replaces the weekoff total and a finite
parse of the column-41 cell replaces the OT total, while a failed
(`NaN`) parse leaves the per-day accumulated value unchanged. -/
theorem claim_C2 (ws : Sheet) (r : ℕ) :
    (summarizeRow ws r).present
        = ((dayCols ws).map fun c => (classifyCell (ws.cells r c)).present).sum ∧
    (summarizeRow ws r).absent
        = ((dayCols ws).map fun c => (classifyCell (ws.cells r c)).absent).sum ∧
    dayCols ws = List.range' 3 (min ws.ec 33 + 1 - 3) ∧
    (dayCols ws).length ≤ 31 ∧
    (∀ q : ℚ, jsParseFloat ((ws.cells r 37).getD "") = .fin q →
        (summarizeRow ws r).weekoff = .fin q) ∧
    (jsParseFloat ((ws.cells r 37).getD "") = .nan →
        (summarizeRow ws r).weekoff
          = .fin ((((dayCols ws).map fun c => (classifyCell (ws.cells r c)).weekoff).sum : ℕ) : ℚ)) ∧
    (∀ q : ℚ, jsParseFloat ((ws.cells r 41).getD "") = .fin q →
        (summarizeRow ws r).otHours = .fin q) ∧
    (jsParseFloat ((ws.cells r 41).getD "") = .nan →
        (summarizeRow ws r).otHours
          = .fin (((dayCols ws).map fun c => (classifyCell (ws.cells r c)).ot).sum)) := by
  refine ⟨?_, ?_, rfl, ?_, ?_, ?_, ?_, ?_⟩
  · show (dayAccum ws r).1 = _
    rw [dayAccum_eq]
  · show (dayAccum ws r).2.1 = _
    rw [dayAccum_eq]
  · rw [dayCols_length]
    omega
  · exact fun q h => summarizeRow_weekoff_fin ws r q h
  · intro h
    rw [summarizeRow_weekoff_nan ws r h, dayAccum_eq]
  · exact fun q h => summarizeRow_otHours_fin ws r q h
  · intro h
    rw [summarizeRow_otHours_nan ws r h, dayAccum_eq]

/-- Witness for C2 on `wsOverride`: the per-day scan yields weekoff 2,
the column-37 override `"3"` parses to 3 and wins. -/
theorem claim_C2_witness :
    jsParseFloat ((wsOverride.cells 0 37).getD "") = JsNum.fin 3 ∧
    (dayAccum wsOverride 0).2.2.1 = 2 ∧
    (summarizeRow wsOverride 0).weekoff = JsNum.fin 3 :=
  have hp : jsParseFloat ((wsOverride.cells 0 37).getD "") = JsNum.fin 3 := by
    with_unfolding_all rfl
  ⟨hp, by decide, (claim_C2 wsOverride 0).2.2.2.2.1 3 hp⟩

/-- The two-stage lookup of `findPresentSheet` (name search, then
sheet-by-name lookup) selects exactly the first sheet whose name
qualifies. -/
theorem findPresentSheet_eq (wb : Workbook) :
    findPresentSheet wb = (wb.sheets.find? (fun p => presentName p.1)).map Prod.snd := by
  obtain ⟨l⟩ := wb
  unfold findPresentSheet
  dsimp only
  induction l with
  | nil => rfl
  | cons p t ih =>
    by_cases hp : presentName p.1 = true
    · rw [List.map_cons, List.find?_cons_of_pos _ hp]
      dsimp only
      rw [@List.find?_cons_of_pos _ (fun q => q.1 == p.1) p t (by simp),
        @List.find?_cons_of_pos _ (fun q => presentName q.1) p t hp]
    · have hp' : presentName p.1 = false := by simpa using hp
      rw [List.map_cons, List.find?_cons_of_neg _ (by simp [hp'])]
      rw [@List.find?_cons_of_neg _ (fun q => presentName q.1) p t (by simp [hp'])]
      cases ht : (t.map Prod.fst).find? presentName with
      | none =>
        rw [ht] at ih
        exact ih
      | some n =>
        have hn : presentName n = true := List.find?_some ht
        have hne : (p.1 == n) = false := by
          simp only [beq_eq_false_iff_ne, ne_eq]
          intro hcontra
          rw [hcontra] at hp'
          rw [hn] at hp'
          cases hp'
        rw [ht] at ih
        dsimp only at ih ⊢
        rw [@List.find?_cons_of_neg _ (fun q => q.1 == n) p t (by simp [hne])]
        exact ih

/-- C7: the Sheet Locator walks sheet names in stored order and picks
the first whose lower-cased trimmed form contains `present` or
`presant`; with no qualifying name (e.g. a lone sheet `"Attendance"`)
the `/employees` endpoint answers 400 sheet-not-found instead of
crashing. -/
theorem claim_C7 :
    (∀ wb : Workbook,
        findPresentSheet wb = (wb.sheets.find? (fun p => presentName p.1)).map Prod.snd) ∧
    (∀ wb : Workbook, (∀ p ∈ wb.sheets, presentName p.1 = false) →
        employeesEndpoint wb = .error ⟨400, "Sheet 'present' not found"⟩) ∧
    presentName "Attendance" = false ∧
    employeesEndpoint ⟨[("Attendance", wsPadded)]⟩
      = .error ⟨400, "Sheet 'present' not found"⟩ := by
  refine ⟨findPresentSheet_eq, ?_, by decide, by with_unfolding_all rfl⟩
  intro wb h
  have hnone : wb.sheets.find? (fun p => presentName p.1) = none :=
    List.find?_eq_none.mpr (fun p hp => by simp [h p hp])
  have hfp : findPresentSheet wb = none := by
    rw [findPresentSheet_eq, hnone]
    rfl
  unfold employeesEndpoint
  rw [hfp]

/-- Witness for C7 at a one-sheet workbook named `"Attendance"`. -/
theorem claim_C7_witness :
    (∀ p ∈ (Workbook.mk [("Attendance", wsCase)]).sheets, presentName p.1 = false) ∧
    employeesEndpoint ⟨[("Attendance", wsCase)]⟩
      = .error ⟨400, "Sheet 'present' not found"⟩ :=
  have h : ∀ p ∈ (Workbook.mk [("Attendance", wsCase)]).sheets, presentName p.1 = false := by
    intro p hp
    rw [List.mem_singleton] at hp
    rw [hp]
    decide
  ⟨h, claim_C7.2.1 ⟨[("Attendance", wsCase)]⟩ h⟩

/-- A successful `findSome?` over a contiguous integer range finds the
least index at which the function fires: everything strictly before it
yields `none`. -/
theorem findSome?_range'_first {α : Type} (f : ℕ → Option α) :
    ∀ n s : ℕ, ∀ x : α, (List.range' s n).findSome? f = some x →
      ∃ r, s ≤ r ∧ r < s + n ∧ f r = some x ∧
        ∀ r', s ≤ r' → r' < r → f r' = none := by
  intro n
  induction n with
  | zero =>
    intro s x h
    simp [List.range'] at h
  | succ m ih =>
    intro s x h
    rw [List.range'_succ] at h
    cases hfs : f s with
    | some y =>
      rw [List.findSome?_cons, hfs] at h
      dsimp only at h
      exact ⟨s, le_refl s, by omega, by rw [hfs, h], fun r' h1 h2 => by omega⟩
    | none =>
      rw [List.findSome?_cons, hfs] at h
      dsimp only at h
      obtain ⟨r, h1, h2, h3, h4⟩ := ih (s + 1) x h
      refine ⟨r, by omega, by omega, h3, fun r' hr1 hr2 => ?_⟩
      by_cases hrs : r' = s
      · rw [hrs]
        exact hfs
      · exact h4 r' (by omega) hr2

/-- A firing `rowCandidate` always carries its own row index. -/
theorem rowCandidate_fst (ws : Sheet) (number name : Option String) (r : ℕ)
    (p : ℕ × Employee) (h : rowCandidate ws number name r = some p) : p.1 = r := by
  unfold rowCandidate at h
  dsimp only at h
  split_ifs at h
  cases h
  rfl

/-- C3: the Row Resolver compares period-stripped, whitespace-collapsed,
trimmed, upper-cased strings; `number="007"` matches the cell `" 007 "`
and not `"0007"`; the first matching non-ignored row wins; and when no
row matches, `/summary` answers 404 employee-not-found. -/
theorem claim_C3 :
    normalizeForCompare " 007 " = "007" ∧
    normalizeForCompare "0007" = "0007" ∧
    findEmployeeRow wsResolver (some "007") none = some (1, ⟨"007", "John Doe"⟩) ∧
    findEmployeeRow wsPadded (some "007") none = none ∧
    (∀ ws : Sheet, ∀ number name : Option String, ∀ r : ℕ, ∀ e : Employee,
        findEmployeeRow ws number name = some (r, e) →
          rowCandidate ws number name r = some (r, e) ∧
          ∀ r', ws.sr ≤ r' → r' < r → rowCandidate ws number name r' = none) ∧
    (∀ wb : Workbook, ∀ number name : Option String, ∀ ws : Sheet,
        ((number.getD "") == "" && (name.getD "") == "") = false →
        findPresentSheet wb = some ws →
        findEmployeeRow ws number name = none →
        summaryEndpoint wb number name = .error ⟨404, "Employee not found"⟩) := by
  refine ⟨by decide, by decide, by decide, by decide, ?_, ?_⟩
  · intro ws number name r e h
    unfold findEmployeeRow rowList at h
    obtain ⟨r0, hr1, hr2, h3, h4⟩ := findSome?_range'_first
      (rowCandidate ws number name) (ws.er + 1 - ws.sr) ws.sr (r, e) h
    have hr0 : r0 = r := by
      have := rowCandidate_fst ws number name r0 (r, e) h3
      simpa using this.symm
    subst hr0
    exact ⟨h3, fun r' ha hb => h4 r' ha hb⟩
  · intro wb number name ws hq hps hrow
    unfold summaryEndpoint
    rw [hq]
    simp only [Bool.false_eq_true, if_false]
    rw [hps]
    dsimp only
    rw [hrow]

/-- Witness for C3: the not-found path of `/summary` on the `"0007"`
sheet. -/
theorem claim_C3_witness :
    (((some "007" : Option String).getD "") == ""
        && ((none : Option String).getD "") == "") = false ∧
    findPresentSheet ⟨[("present", wsPadded)]⟩ = some wsPadded ∧
    findEmployeeRow wsPadded (some "007") none = none ∧
    summaryEndpoint ⟨[("present", wsPadded)]⟩ (some "007") none
      = .error ⟨404, "Employee not found"⟩ :=
  have h1 : (((some "007" : Option String).getD "") == ""
      && ((none : Option String).getD "") == "") = false := by decide
  have h2 : findPresentSheet ⟨[("present", wsPadded)]⟩ = some wsPadded := by
    with_unfolding_all rfl
  have h3 : findEmployeeRow wsPadded (some "007") none = none := by decide
  ⟨h1, h2, h3,
    claim_C3.2.2.2.2.2 ⟨[("present", wsPadded)]⟩ (some "007") none wsPadded h1 h2 h3⟩

/-- Membership in the pre-deduplication list, characterised by the
producing row. -/
theorem mem_rawEmployees (ws : Sheet) (e : Employee) :
    e ∈ rawEmployees ws ↔ ∃ r ∈ rowList ws,
      isIgnored (normalizeStr (ws.cells r 1)) = false ∧
      isIgnored (normalizeStr (ws.cells r 2)) = false ∧
      e = ⟨normalizeStr (ws.cells r 1), normalizeStr (ws.cells r 2)⟩ := by
  unfold rawEmployees
  rw [List.mem_filterMap]
  constructor
  · rintro ⟨r, hr, hf⟩
    dsimp only at hf
    split_ifs at hf with hI
    injection hf with hf
    simp only [Bool.or_eq_true, not_or, Bool.not_eq_true] at hI
    exact ⟨r, hr, hI.1, hI.2, hf.symm⟩
  · rintro ⟨r, hr, h1, h2, he⟩
    refine ⟨r, hr, ?_⟩
    dsimp only
    rw [h1, h2]
    simp [he]

/-- Deduplication returns a sublist (order-preserving selection). -/
theorem dedupeBy_sublist (l : List Employee) :
    ∀ seen, (dedupeBy l seen).Sublist l := by
  induction l with
  | nil => intro seen; simp [dedupeBy]
  | cons e t ih =>
    intro seen
    simp only [dedupeBy]
    by_cases h : empKey e ∈ seen
    · rw [if_pos h]
      exact List.Sublist.cons _ (ih seen)
    · rw [if_neg h]
      exact List.Sublist.cons₂ _ (ih _)

/-- Elements surviving deduplication have keys outside `seen`. -/
theorem dedupeBy_not_seen (l : List Employee) :
    ∀ seen e, e ∈ dedupeBy l seen → empKey e ∉ seen := by
  induction l with
  | nil => intro seen e h; simp [dedupeBy] at h
  | cons a t ih =>
    intro seen e h
    simp only [dedupeBy] at h
    by_cases hc : empKey a ∈ seen
    · rw [if_pos hc] at h
      exact ih seen e h
    · rw [if_neg hc] at h
      rcases List.mem_cons.mp h with he | he
      · rw [he]
        exact hc
      · have := ih _ e he
        intro hmem
        exact this (List.mem_cons_of_mem _ hmem)

/-- Each surviving element is the first raw element bearing its key. -/
theorem dedupeBy_first (l : List Employee) :
    ∀ seen e, e ∈ dedupeBy l seen →
      l.find? (fun x => empKey x == empKey e) = some e := by
  induction l with
  | nil => intro seen e h; simp [dedupeBy] at h
  | cons a t ih =>
    intro seen e h
    simp only [dedupeBy] at h
    by_cases hc : empKey a ∈ seen
    · rw [if_pos hc] at h
      have hnotin := dedupeBy_not_seen t seen e h
      have hne : (empKey a == empKey e) = false := by
        rw [beq_eq_false_iff_ne]
        intro hcontra
        rw [hcontra] at hc
        exact hnotin hc
      rw [@List.find?_cons_of_neg _ (fun x => empKey x == empKey e) a t (by simp [hne])]
      exact ih seen e h
    · rw [if_neg hc] at h
      rcases List.mem_cons.mp h with he | he
      · rw [he]
        exact List.find?_cons_of_pos _ (by simp)
      · have hnotin := dedupeBy_not_seen t (empKey a :: seen) e he
        have hne : (empKey a == empKey e) = false := by
          rw [beq_eq_false_iff_ne]
          intro hcontra
          exact hnotin (by rw [← hcontra]; exact List.mem_cons_self _ _)
        rw [@List.find?_cons_of_neg _ (fun x => empKey x == empKey e) a t (by simp [hne])]
        exact ih _ e he

/-- Every raw element's key is represented after deduplication. -/
theorem dedupeBy_covers (l : List Employee) :
    ∀ seen e, e ∈ l → empKey e ∉ seen →
      ∃ e' ∈ dedupeBy l seen, empKey e' = empKey e := by
  induction l with
  | nil => intro seen e h _; cases h
  | cons a t ih =>
    intro seen e h hn
    simp only [dedupeBy]
    by_cases hc : empKey a ∈ seen
    · rw [if_pos hc]
      rcases List.mem_cons.mp h with he | he
      · exact absurd (by rw [he]; exact hc) hn
      · exact ih seen e he hn
    · rw [if_neg hc]
      by_cases hk : empKey e = empKey a
      · exact ⟨a, List.mem_cons_self a _, hk.symm⟩
      · rcases List.mem_cons.mp h with he | he
        · exact absurd (by rw [he]) hk
        · obtain ⟨e', he', hk'⟩ := ih (empKey a :: seen) e he (by
            intro hmem
            rcases List.mem_cons.mp hmem with h1 | h1
            · exact hk h1
            · exact hn h1)
          exact ⟨e', List.mem_cons_of_mem a he', hk'⟩

/-- Keys are pairwise distinct after deduplication. -/
theorem dedupeBy_keys_nodup (l : List Employee) :
    ∀ seen, ((dedupeBy l seen).map empKey).Nodup := by
  induction l with
  | nil => intro seen; simp [dedupeBy]
  | cons a t ih =>
    intro seen
    simp only [dedupeBy]
    by_cases hc : empKey a ∈ seen
    · rw [if_pos hc]
      exact ih seen
    · rw [if_neg hc]
      rw [List.map_cons, List.nodup_cons]
      refine ⟨?_, ih _⟩
      intro hmem
      rw [List.mem_map] at hmem
      obtain ⟨e', he', hk⟩ := hmem
      have := dedupeBy_not_seen t (empKey a :: seen) e' he'
      exact this (by rw [hk]; exact List.mem_cons_self _ _)

/-- C4 counterexample: `wsCase` has two non-ignored rows whose identity
keys differ only in letter case, yet both employees appear — the `Map`
key comparison is exact string equality, not the case-insensitive
comparison the claim asserts. -/
theorem claim_C4_counterexample :
    strLower "A1" = strLower "a1" ∧
    readEmployeesFromSheet wsCase = [⟨"A1", "X"⟩, ⟨"a1", "Y"⟩] :=
  ⟨by decide, by decide⟩

/-- C4 (amended): deduplication is by identity key — the trimmed
number when non-empty, else the name — compared by exact string
equality (case- and whitespace-sensitive); the first occurrence wins
and first-occurrence order is preserved. -/
theorem claim_C4 :
    (∀ ws : Sheet, (readEmployeesFromSheet ws).Sublist (rawEmployees ws)) ∧
    (∀ ws : Sheet, ((readEmployeesFromSheet ws).map empKey).Nodup) ∧
    (∀ ws : Sheet, ∀ e : Employee, e ∈ readEmployeesFromSheet ws →
        (rawEmployees ws).find? (fun x => empKey x == empKey e) = some e) ∧
    (∀ ws : Sheet, ∀ e : Employee, e ∈ rawEmployees ws →
        ∃ e' ∈ readEmployeesFromSheet ws, empKey e' = empKey e) :=
  ⟨fun _ => dedupeBy_sublist _ _,
   fun _ => dedupeBy_keys_nodup _ _,
   fun _ e he => dedupeBy_first _ _ e he,
   fun _ e he => dedupeBy_covers _ _ e he (by simp)⟩

/-- Witness for C4 on `wsCase`: the surviving `⟨"A1","X"⟩` is the first
raw occurrence of its key. -/
theorem claim_C4_witness :
    (⟨"A1", "X"⟩ : Employee) ∈ readEmployeesFromSheet wsCase ∧
    (rawEmployees wsCase).find?
        (fun x => empKey x == empKey ⟨"A1", "X"⟩) = some ⟨"A1", "X"⟩ :=
  have hm : (⟨"A1", "X"⟩ : Employee) ∈ readEmployeesFromSheet wsCase := by decide
  ⟨hm, claim_C4.2.2.1 wsCase ⟨"A1", "X"⟩ hm⟩

/-- C5 counterexample: a row with a valid number `"7"` but an empty
name cell is skipped by the Employee Directory Extractor, contradicting
the claim that such a row is included. -/
theorem claim_C5_counterexample :
    wsEmptyName.cells 0 1 = some "7" ∧
    wsEmptyName.cells 0 2 = some "" ∧
    isIgnored "7" = false ∧
    readEmployeesFromSheet wsEmptyName = [] :=
  ⟨by decide, by decide, by decide, by decide⟩

/-- Inverting a firing `rowCandidate`: the produced pair carries the
row's normalized cells, both of which are non-ignored and matching. -/
theorem rowCandidate_inv (ws : Sheet) (number name : Option String) (r : ℕ)
    (p : ℕ × Employee) (h : rowCandidate ws number name r = some p) :
    p = (r, ⟨normalizeStr (ws.cells r 1), normalizeStr (ws.cells r 2)⟩) ∧
    isIgnored (normalizeStr (ws.cells r 1)) = false ∧
    isIgnored (normalizeStr (ws.cells r 2)) = false ∧
    rowMatches (queryNorm number) (queryNorm name)
      (normalizeStr (ws.cells r 1)) (normalizeStr (ws.cells r 2)) = true := by
  unfold rowCandidate at h
  dsimp only at h
  split_ifs at h with h1 h2
  injection h with h'
  simp only [Bool.or_eq_true, not_or, Bool.not_eq_true] at h1
  exact ⟨h'.symm, h1.1, h1.2, h2⟩

/-- C5 (amended): a row is skipped by both the directory extractor and
the row resolver when either identity cell, once trimmed, is empty,
matches `no`/`no.` case-insensitively, or is a bare `"."`; in
particular `"No."` and `"."` rows are skipped — and so is a row with an
empty name even when its number is valid. -/
theorem claim_C5 :
    (∀ s : String, isIgnored s = true ↔
        (strTrim s = "" ∨ strLower (strTrim s) = "no" ∨
         strLower (strTrim s) = "no." ∨ strTrim s = ".")) ∧
    (∀ ws : Sheet, ∀ e : Employee, e ∈ readEmployeesFromSheet ws →
        isIgnored e.number = false ∧ isIgnored e.name = false) ∧
    (∀ ws : Sheet, ∀ number name : Option String, ∀ r : ℕ, ∀ e : Employee,
        findEmployeeRow ws number name = some (r, e) →
        isIgnored e.number = false ∧ isIgnored e.name = false) ∧
    isIgnored "No." = true ∧ isIgnored "." = true ∧
    readEmployeesFromSheet wsDotHeader = [] ∧
    readEmployeesFromSheet wsEmptyName = [] := by
  refine ⟨?_, ?_, ?_, by decide, by decide, by decide, by decide⟩
  · intro s
    simp [isIgnored]
    tauto
  · intro ws e he
    have hraw : e ∈ rawEmployees ws := (dedupeBy_sublist (rawEmployees ws) []).subset he
    rw [mem_rawEmployees] at hraw
    obtain ⟨r, _, h1, h2, he'⟩ := hraw
    rw [he']
    exact ⟨h1, h2⟩
  · intro ws number name r e h
    unfold findEmployeeRow at h
    obtain ⟨r0, _, hcand⟩ := List.exists_of_findSome?_eq_some h
    obtain ⟨hp, h1, h2, _⟩ := rowCandidate_inv ws number name r0 (r, e) hcand
    have : e = ⟨normalizeStr (ws.cells r0 1), normalizeStr (ws.cells r0 2)⟩ := by
      have := congrArg Prod.snd hp
      simpa using this
    rw [this]
    exact ⟨h1, h2⟩

/-- Witness for C5 on `wsResolver`: the extracted employee has
non-ignored cells. -/
theorem claim_C5_witness :
    (⟨"007", "John Doe"⟩ : Employee) ∈ readEmployeesFromSheet wsResolver ∧
    isIgnored (Employee.number ⟨"007", "John Doe"⟩) = false ∧
    isIgnored (Employee.name ⟨"007", "John Doe"⟩) = false :=
  have hm : (⟨"007", "John Doe"⟩ : Employee) ∈ readEmployeesFromSheet wsResolver := by
    decide
  ⟨hm, (claim_C5.2.1 wsResolver ⟨"007", "John Doe"⟩ hm).1,
    (claim_C5.2.1 wsResolver ⟨"007", "John Doe"⟩ hm).2⟩

/-- C10: every employee returned by the Employee Directory Extractor
whose number survives the resolver's normalization is found again by
the Row Resolver on the same sheet — both components apply the same
ignore rule and the same normalization to the same cells. -/
theorem claim_C10 (ws : Sheet) (e : Employee)
    (he : e ∈ readEmployeesFromSheet ws)
    (hn : normalizeForCompare e.number ≠ "") :
    (findEmployeeRow ws (some e.number) none).isSome = true := by
  have hraw : e ∈ rawEmployees ws := (dedupeBy_sublist (rawEmployees ws) []).subset he
  rw [mem_rawEmployees] at hraw
  obtain ⟨r, hr, h1, h2, he'⟩ := hraw
  have hnum : e.number = normalizeStr (ws.cells r 1) := by rw [he']
  have hne : (e.number == "") = false := by
    rw [beq_eq_false_iff_ne]
    intro h0
    rw [h0] at hnum
    rw [← hnum] at h1
    exact absurd h1 (by decide)
  have hq : queryNorm (some e.number) = some (normalizeForCompare e.number) := by
    unfold queryNorm
    dsimp only
    rw [if_neg (by simp [hne])]
  have hM : rowMatches (queryNorm (some e.number)) (queryNorm none)
      (normalizeStr (ws.cells r 1)) (normalizeStr (ws.cells r 2)) = true := by
    rw [hq]
    unfold rowMatches
    dsimp only
    rw [← hnum]
    simp [hn]
  have hcand : rowCandidate ws (some e.number) none r ≠ none := by
    unfold rowCandidate
    dsimp only
    rw [if_neg (by simp [h1, h2]), if_pos hM]
    simp
  unfold findEmployeeRow
  cases hfs : (rowList ws).findSome? (rowCandidate ws (some e.number) none) with
  | some x => rfl
  | none => exact absurd (List.findSome?_eq_none_iff.mp hfs r hr) hcand

/-- Witness for C10 on `wsResolver` with the extracted employee
`⟨"008","Jane"⟩`. -/
theorem claim_C10_witness :
    (⟨"008", "Jane"⟩ : Employee) ∈ readEmployeesFromSheet wsResolver ∧
    normalizeForCompare (Employee.number ⟨"008", "Jane"⟩) ≠ "" ∧
    (findEmployeeRow wsResolver (some "008") none).isSome = true :=
  have hm : (⟨"008", "Jane"⟩ : Employee) ∈ readEmployeesFromSheet wsResolver := by decide
  have hn : normalizeForCompare (Employee.number ⟨"008", "Jane"⟩) ≠ "" := by decide
  ⟨hm, hn, claim_C10 wsResolver ⟨"008", "Jane"⟩ hm hn⟩

end ATD
